import Mathlib

/-!
Verification of the DataStream chunked byte-stream readers.

Shallow embedding of `src/data-stream/file_reader.hpp` and
`src/data-stream/sock_reader.hpp` (the raw-capture branch of
`SocketReaderImpl<true>::read_into` and the BPF filter of
`setup_bpf_filter`), plus theorems checking the specification's claims
against these embeddings.

Modelling conventions:
  * `uint8_t` bytes are `Nat` reduced `% 256` at every buffer read;
  * the 65536-byte internal `frame_buffer_` is modelled as the received
    frame (a `List Nat`) overlaid on a `stale : Nat → Nat` function that
    gives the residual contents of the buffer beyond the received length;
  * a `recvfrom` call is modelled as one `RecvEvent` consumed from a
    queue; C++ exceptions become explicit constructors of `ReadRet`;
  * `FILE*` state of `FileReader` is modelled as the file's bytes plus an
    explicit read position.
-/

/-- One outcome of a single `recvfrom` call on the raw capture socket:
a received frame, `EAGAIN`/`EWOULDBLOCK` (timeout), `EINTR` (interrupt),
or any other failure with its `strerror` text. -/
inductive RecvEvent where
  | frame (f : List Nat)
  | eagain
  | eintr
  | fault (msg : String)
deriving DecidableEq, Repr

/-- Result of one `read_into` call on the raw socket reader: a normal
`return n` together with the bytes `memcpy`ed into the caller's buffer,
a thrown `ReadTimeout`, or a thrown `SocketError`. -/
inductive ReadRet where
  | ret (n : Nat) (written : List Nat)
  | excTimeout (msg : String)
  | excSocket (msg : String)
deriving DecidableEq, Repr

/-- The C++ exception class of a result, if it is a thrown exception. -/
def ReadRet.excClass : ReadRet → Option String
  | .ret _ _ => none
  | .excTimeout _ => some "ReadTimeout"
  | .excSocket _ => some "SocketError"

/-- Reading byte `i` of `frame_buffer_` after a frame `f` of
`recv_bytes = f.length` bytes was received into it: inside the received
range it is the frame's byte, beyond it whatever the buffer held before
(`stale`).  A `uint8_t` is always `< 256`, hence the `% 256`. -/
def frameByte (f : List Nat) (stale : Nat → Nat) (i : Nat) : Nat :=
  (f[i]?.getD (stale i)) % 256

/-- `uint8_t ip_header_len = (ip_header[0] & 0x0F) * 4;`
(sock_reader.hpp line 348, with `ip_header = frame_buffer_ + 14`). -/
def ip_header_len (stale : Nat → Nat) (f : List Nat) : Nat :=
  (frameByte f stale 14 &&& 0x0F) * 4

/-- What the parsing part of `SocketReaderImpl<true>::read_into`
(sock_reader.hpp lines 339-380) does with one received frame. -/
inductive ParseResult where
  | malformed (msg : String)
  | wrongPort
  | payload (p : List Nat)
deriving DecidableEq, Repr

/-- `uint16_t udp_dest_port = (udp_header[2] << 8) | udp_header[3];`
(sock_reader.hpp line 359, with `udp_header = frame_buffer_ + 14 +
ip_header_len`); the `% 65536` is the store into the `uint16_t`, a no-op
since both bytes are `< 256`. -/
def udp_dest_port (stale : Nat → Nat) (f : List Nat) : Nat :=
  ((frameByte f stale (14 + ip_header_len stale f + 2) <<< 8) |||
    frameByte f stale (14 + ip_header_len stale f + 3)) % 65536

/-- `size_t total_headers = 14 + ip_header_len + 8;`
(sock_reader.hpp line 371). -/
def total_headers (stale : Nat → Nat) (f : List Nat) : Nat :=
  14 + ip_header_len stale f + 8

/-- Parsing of one received frame, straight from sock_reader.hpp
lines 339-380.  The second component is the trace of `frame_buffer_`
indices the code reads, in order: `ip_header[0]` is index 14,
`udp_header[2]`/`udp_header[3]` are indices `14+ihl+2`/`14+ihl+3`, and
the `memcpy` reads indices `total_headers .. recv_bytes-1`. -/
def parseFrame (port : Nat) (stale : Nat → Nat) (f : List Nat) :
    ParseResult × List Nat :=
  if f.length < 14 + 20 + 8 then
    (.malformed "Received frame too small for UDP packet", [])
  else if ip_header_len stale f < 20 then
    (.malformed ("Invalid IP header length: " ++ toString (ip_header_len stale f)),
     [14])
  else if udp_dest_port stale f ≠ port then
    (.wrongPort,
     [14, 14 + ip_header_len stale f + 2, 14 + ip_header_len stale f + 3])
  else if f.length < total_headers stale f then
    (.malformed "Frame size mismatch in header parsing",
     [14, 14 + ip_header_len stale f + 2, 14 + ip_header_len stale f + 3])
  else
    (.payload (f.drop (total_headers stale f)),
     [14, 14 + ip_header_len stale f + 2, 14 + ip_header_len stale f + 3] ++
       (List.range (f.length - total_headers stale f)).map
         (· + total_headers stale f))

/-- The `while (true)` receive loop of `SocketReaderImpl<true>::read_into`
(sock_reader.hpp lines 320-390), run against a queue of receive events.
`none` means the queue was exhausted with the loop still blocked in
`recvfrom`.  On a wrong-port frame the loop continues with the frame's
bytes now forming the stale contents of `frame_buffer_`. -/
def rawReadLoop (port : Nat) (stale : Nat → Nat) :
    List RecvEvent → Option ReadRet
  | [] => none
  | .eagain :: _ => some (.excTimeout "Socket receive timeout expired")
  | .eintr :: _ => some (.ret 0 [])
  | .fault msg :: _ => some (.excSocket ("recvfrom() failed: " ++ msg))
  | .frame f :: rest =>
    match (parseFrame port stale f).1 with
    | .malformed msg => some (.excSocket msg)
    | .wrongPort => rawReadLoop port (frameByte f stale) rest
    | .payload p => some (.ret p.length p)

/-- Configuration state of `SocketReaderImpl<true>` (the raw capture
reader): the constructor arguments stored in the object. -/
structure SocketReaderImpl where
  ip_ : String
  port_ : Nat
  dev_ : String
  timeout_ms_ : Int
  chunk_size_ : Nat
deriving DecidableEq, Repr

/-- `SocketReaderImpl::get_chunk_size` (sock_reader.hpp line 308). -/
def SocketReaderImpl.get_chunk_size (s : SocketReaderImpl) : Nat :=
  s.chunk_size_

/-- `SocketReaderImpl::get_type` for `IS_RAW = true`. -/
def SocketReaderImpl.get_type (_ : SocketReaderImpl) : String :=
  "SocketReader<RAW>"

/-- `SocketReaderImpl<true>::read_into` on a queue of receive events.
Note that the raw branch of the C++ code uses only `port_` of the
configuration; in particular `chunk_size_` never bounds anything. -/
def SocketReaderImpl.read_into (s : SocketReaderImpl) (stale : Nat → Nat)
    (evs : List RecvEvent) : Option ReadRet :=
  rawReadLoop s.port_ stale evs

/-! ### The BPF filter of `setup_bpf_filter` (sock_reader.hpp 164-195) -/

/-- The classic-BPF instruction forms used by `setup_bpf_filter`. -/
inductive SockFilter where
  | ldhAbs (k : Nat)
  | ldbAbs (k : Nat)
  | jeqK (k jt jf : Nat)
  | retK (k : Nat)
deriving DecidableEq, Repr

/-- The exact `bpf_code` array of `setup_bpf_filter` (sock_reader.hpp
lines 168-182); `IPPROTO_UDP = 17`. -/
def bpf_code : List SockFilter :=
  [ .ldhAbs 12,
    .jeqK 0x0800 0 3,
    .ldbAbs 23,
    .jeqK 17 0 1,
    .retK 65535,
    .retK 0 ]

/-- Classic-BPF evaluation of a program over a packet: `A` is the
accumulator, `pc` the program counter.  An absolute load beyond the
packet's length terminates the program with return value 0 (the packet
is dropped), as the kernel's cBPF interpreter does.  `none` means the
program ran off its end or out of fuel (never happens for `bpf_code`). -/
def bpfRun (prog : List SockFilter) (pkt : List Nat) :
    Nat → Nat → Nat → Option Nat
  | 0, _, _ => none
  | fuel + 1, pc, acc =>
    match prog[pc]? with
    | none => none
    | some (.ldhAbs k) =>
      match pkt[k]?, pkt[k + 1]? with
      | some b0, some b1 =>
        bpfRun prog pkt fuel (pc + 1) (((b0 % 256) <<< 8) ||| (b1 % 256))
      | _, _ => some 0
    | some (.ldbAbs k) =>
      match pkt[k]? with
      | some b => bpfRun prog pkt fuel (pc + 1) (b % 256)
      | none => some 0
    | some (.jeqK k jt jf) =>
      if acc = k then bpfRun prog pkt fuel (pc + 1 + jt) acc
      else bpfRun prog pkt fuel (pc + 1 + jf) acc
    | some (.retK k) => some k

/-- A packet is accepted by the filter when the program returns a
non-zero byte count. -/
def bpf_accepts (pkt : List Nat) : Bool :=
  match bpfRun bpf_code pkt (bpf_code.length + 1) 0 0 with
  | some n => decide (0 < n)
  | none => false

/-! ### `FileReader` (file_reader.hpp) -/

/-- State of a `FileReader`: the stored constructor arguments, the file's
bytes, the size and chunk-count metadata computed in the constructor, and
the `FILE*` read position.  The stdio buffer (`vbuf_`) is pure I/O tuning
and does not appear: it cannot change the bytes observed. -/
structure FileReader where
  path : String
  chunk_sz : Nat
  offs : Nat
  contents : List Nat
  fsz : Nat
  chunk_count : Nat
  pos : Nat
deriving DecidableEq, Repr

/-- The `FileReader` constructor (file_reader.hpp lines 33-63) over a
file whose bytes are `contents`: stores the arguments, computes
`fsz = file_size` and `chunk_count = (fsz + chunk_sz - 1) / chunk_sz`,
and ends with `jump_to(offs)`. -/
def FileReader.make (file_path : String) (contents : List Nat)
    (chunk_size : Nat) (offset : Nat) : FileReader :=
  { path := file_path
    chunk_sz := chunk_size
    offs := offset
    contents := contents
    fsz := contents.length
    chunk_count := (contents.length + chunk_size - 1) / chunk_size
    pos := offset }

/-- `FileReader::read_into` (file_reader.hpp lines 67-73):
`fread(buff_ptr, 1, chunk_sz, pf)` reads up to `chunk_sz` bytes from the
current position and advances it.  Returns the bytes written to the
caller's buffer, the returned count `rd`, and the new reader state. -/
def FileReader.read_into (r : FileReader) : (List Nat × Nat) × FileReader :=
  let rd := (r.contents.drop r.pos).take r.chunk_sz
  ((rd, rd.length), { r with pos := r.pos + rd.length })

/-- `FileReader::jump_to` (file_reader.hpp lines 78-82):
`fseek64(pf, offset, SEEK_SET)`. -/
def FileReader.jump_to (r : FileReader) (offset : Nat) : FileReader :=
  { r with pos := offset }

/-- `FileReader::get_chunk_size` (file_reader.hpp line 75). -/
def FileReader.get_chunk_size (r : FileReader) : Nat := r.chunk_sz

/-- `FileReader::get_size` (file_reader.hpp line 84). -/
def FileReader.get_size (r : FileReader) : Nat := r.fsz

/-- `FileReader::get_chunk_count` (file_reader.hpp line 85). -/
def FileReader.get_chunk_count (r : FileReader) : Nat := r.chunk_count

/-- `FileReader::get_file_path` (file_reader.hpp line 86). -/
def FileReader.get_file_path (r : FileReader) : String := r.path

/-- `FileReader::get_type` (file_reader.hpp line 76). -/
def FileReader.get_type (r : FileReader) : String :=
  "file reader: " ++ r.path

/-- Repeatedly call `read_into` until a call returns 0 bytes, collecting
the data chunks of the non-zero calls; returns them together with the
reader state after the terminating 0-byte call.  Fuelled: `fuel` bounds
the number of calls, and `contents.length + 1` always suffices since each
non-zero read advances `pos` by at least one. -/
def FileReader.drainFuel : Nat → FileReader → List (List Nat) × FileReader
  | 0, r => ([], r)
  | fuel + 1, r =>
    if r.read_into.1.2 = 0 then ([], r.read_into.2)
    else
      (r.read_into.1.1 :: (FileReader.drainFuel fuel r.read_into.2).1,
       (FileReader.drainFuel fuel r.read_into.2).2)

/-- Repeated `read_into` calls until one returns 0 bytes. -/
def FileReader.drain (r : FileReader) : List (List Nat) × FileReader :=
  FileReader.drainFuel (r.contents.length + 1) r

/-! ### Concrete inputs used as witnesses and counterexamples -/

/-- A concrete choice for the residual contents of `frame_buffer_`
beyond the received bytes: all zero. -/
def stale0 : Nat → Nat := fun _ => 0

/-- A 14-byte all-zero Ethernet header. -/
def ethEx : List Nat := List.replicate 14 0

/-- A 20-byte IPv4 header with IHL = 5 (first byte `0x45`). -/
def ipEx : List Nat := 0x45 :: List.replicate 19 0

/-- An 8-byte UDP header with destination port 9999 (`0x270F`). -/
def udpEx9999 : List Nat := [0, 0, 0x27, 0x0F, 0, 0, 0, 0]

/-- An 8-byte UDP header with destination port 8888 (`0x22B8`). -/
def udpEx8888 : List Nat := [0, 0, 0x22, 0xB8, 0, 0, 0, 0]

/-- A well-formed 47-byte frame to port 9999 with payload
`[1, 2, 3, 4, 5]`. -/
def frameEx : List Nat := ethEx ++ ipEx ++ udpEx9999 ++ [1, 2, 3, 4, 5]

/-- A well-formed 44-byte frame to port 8888 with payload `[9, 9]`. -/
def frameEx8888 : List Nat := ethEx ++ ipEx ++ udpEx8888 ++ [9, 9]

/-- A well-formed 42-byte frame to port 9999 with empty payload. -/
def frameExEmpty : List Nat := ethEx ++ ipEx ++ udpEx9999 ++ []

/-- A 42-byte frame whose IHL nibble is 15 (`0x4F`), so the computed IP
header length is 60 and the UDP port bytes lie at indices 76 and 77,
beyond the received length. -/
def frameExIhl15 : List Nat := List.replicate 14 0 ++ 0x4F :: List.replicate 27 0

/-- A 41-byte frame, one byte below the 42-byte structural minimum. -/
def frameExShort : List Nat := List.replicate 41 0

/-- A 24-byte packet whose EtherType is IPv4 (`0x0800` at offset 12) and
whose IP protocol byte (offset 23) is UDP (17). -/
def pktExUdp : List Nat :=
  List.replicate 12 0 ++ [0x08, 0x00] ++ List.replicate 9 0 ++ [17]

/-- Like `pktExUdp` but with IP protocol byte 6 (TCP). -/
def pktExTcp : List Nat :=
  List.replicate 12 0 ++ [0x08, 0x00] ++ List.replicate 9 0 ++ [6]

/-! ### Helper lemmas -/

theorem mem_of_getElem_eq_some {l : List Nat} {n a : Nat}
    (h : l[n]? = some a) : a ∈ l := by
  obtain ⟨hlt, rfl⟩ := List.getElem?_eq_some.mp h
  exact List.getElem_mem hlt

theorem frameByte_lt (f : List Nat) (stale : Nat → Nat) (i : Nat) :
    frameByte f stale i < 256 :=
  Nat.mod_lt _ (by norm_num)

theorem ip_header_len_le (stale : Nat → Nat) (f : List Nat) :
    ip_header_len stale f ≤ 60 := by
  unfold ip_header_len
  have h : frameByte f stale 14 &&& 0x0F ≤ 0x0F := Nat.and_le_right
  omega


/-- What the per-frame parsing does on a structurally well-formed frame:
14-byte Ethernet header, IP header of `(b0 &&& 0x0F) * 4 = ipH.length`
bytes (`≥ 20`), 8-byte UDP header with destination-port bytes `d2 d3`,
and payload `P`.  The frame is accepted with payload `P` when the
destination port matches the configured port and silently skipped
otherwise. -/
theorem parseFrame_wellFormed (port : Nat) (stale : Nat → Nat)
    (eth ipH udpH P : List Nat) (b0 d2 d3 : Nat)
    (he : eth.length = 14) (h20 : 20 ≤ ipH.length) (hu8 : udpH.length = 8)
    (hb0 : ipH[0]? = some b0)
    (hd2 : udpH[2]? = some d2) (hd3 : udpH[3]? = some d3)
    (hihl : (b0 &&& 0x0F) * 4 = ipH.length)
    (hbytes : ∀ b ∈ ipH ++ udpH, b < 256) :
    (parseFrame port stale (eth ++ ipH ++ udpH ++ P)).1 =
      if (d2 <<< 8) ||| d3 = port then ParseResult.payload P
      else ParseResult.wrongPort := by
  have hb0' : b0 < 256 :=
    hbytes b0 (List.mem_append_left _ (mem_of_getElem_eq_some hb0))
  have hd2' : d2 < 256 :=
    hbytes d2 (List.mem_append_right _ (mem_of_getElem_eq_some hd2))
  have hd3' : d3 < 256 :=
    hbytes d3 (List.mem_append_right _ (mem_of_getElem_eq_some hd3))
  rw [show eth ++ ipH ++ udpH ++ P = eth ++ (ipH ++ (udpH ++ P)) from by
    simp [List.append_assoc]]
  have hlen : (eth ++ (ipH ++ (udpH ++ P))).length = 22 + ipH.length + P.length := by
    simp only [List.length_append]
    omega
  have h14 : (eth ++ (ipH ++ (udpH ++ P)))[14]? = some b0 := by
    rw [List.getElem?_append_right (by omega)]
    rw [List.getElem?_append, if_pos (by omega)]
    have hx : 14 - eth.length = 0 := by omega
    rw [hx, hb0]
  have hfb14 : frameByte (eth ++ (ipH ++ (udpH ++ P))) stale 14 = b0 := by
    unfold frameByte
    rw [h14]
    simp [Nat.mod_eq_of_lt hb0']
  have hihl' : ip_header_len stale (eth ++ (ipH ++ (udpH ++ P))) = ipH.length := by
    unfold ip_header_len
    rw [hfb14, hihl]
  have hi2 : (eth ++ (ipH ++ (udpH ++ P)))[14 + ipH.length + 2]? = some d2 := by
    rw [List.getElem?_append_right (by omega)]
    rw [List.getElem?_append_right (by omega)]
    rw [List.getElem?_append, if_pos (by omega)]
    have hx : 14 + ipH.length + 2 - eth.length - ipH.length = 2 := by omega
    rw [hx, hd2]
  have hi3 : (eth ++ (ipH ++ (udpH ++ P)))[14 + ipH.length + 3]? = some d3 := by
    rw [List.getElem?_append_right (by omega)]
    rw [List.getElem?_append_right (by omega)]
    rw [List.getElem?_append, if_pos (by omega)]
    have hx : 14 + ipH.length + 3 - eth.length - ipH.length = 3 := by omega
    rw [hx, hd3]
  have hfb2 : frameByte (eth ++ (ipH ++ (udpH ++ P))) stale (14 + ipH.length + 2) = d2 := by
    unfold frameByte
    rw [hi2]
    simp [Nat.mod_eq_of_lt hd2']
  have hfb3 : frameByte (eth ++ (ipH ++ (udpH ++ P))) stale (14 + ipH.length + 3) = d3 := by
    unfold frameByte
    rw [hi3]
    simp [Nat.mod_eq_of_lt hd3']
  have hport : udp_dest_port stale (eth ++ (ipH ++ (udpH ++ P))) = (d2 <<< 8) ||| d3 := by
    unfold udp_dest_port
    rw [hihl', hfb2, hfb3]
    apply Nat.mod_eq_of_lt
    have h16 : (2 : Nat) ^ 16 = 65536 := by norm_num
    have hx : d2 <<< 8 < 2 ^ 16 := by
      rw [Nat.shiftLeft_eq]
      have h8 : (2 : Nat) ^ 8 = 256 := by norm_num
      omega
    have hy : d3 < 2 ^ 16 := by omega
    have := Nat.or_lt_two_pow hx hy
    omega
  have hdrop : (eth ++ (ipH ++ (udpH ++ P))).drop (14 + ipH.length + 8) = P := by
    rw [show eth ++ (ipH ++ (udpH ++ P)) = (eth ++ ipH ++ udpH) ++ P from by
      simp [List.append_assoc]]
    rw [List.drop_left' (by simp only [List.length_append]; omega)]
  unfold parseFrame
  rw [if_neg (by omega)]
  rw [hihl']
  rw [if_neg (by omega)]
  rw [hport]
  by_cases hp : (d2 <<< 8) ||| d3 = port
  · rw [if_neg (not_not_intro hp), if_pos hp]
    unfold total_headers
    rw [hihl']
    rw [if_neg (by omega)]
    rw [hdrop]
  · rw [if_pos hp, if_neg hp]

theorem rawReadLoop_frame_payload (port : Nat) (stale : Nat → Nat)
    (f : List Nat) (rest : List RecvEvent) (P : List Nat)
    (h : (parseFrame port stale f).1 = ParseResult.payload P) :
    rawReadLoop port stale (RecvEvent.frame f :: rest) =
      some (ReadRet.ret P.length P) := by
  simp only [rawReadLoop, h]

theorem rawReadLoop_frame_wrongPort (port : Nat) (stale : Nat → Nat)
    (f : List Nat) (rest : List RecvEvent)
    (h : (parseFrame port stale f).1 = ParseResult.wrongPort) :
    rawReadLoop port stale (RecvEvent.frame f :: rest) =
      rawReadLoop port (frameByte f stale) rest := by
  simp only [rawReadLoop, h]

theorem rawReadLoop_frame_malformed (port : Nat) (stale : Nat → Nat)
    (f : List Nat) (rest : List RecvEvent) (msg : String)
    (h : (parseFrame port stale f).1 = ParseResult.malformed msg) :
    rawReadLoop port stale (RecvEvent.frame f :: rest) =
      some (ReadRet.excSocket msg) := by
  simp only [rawReadLoop, h]

/-- C3: for every well-formed received frame consisting of a 14-byte
Ethernet header, an IPv4 header of `IHL·4` bytes (`IHL·4 ≥ 20`), an
8-byte UDP header whose destination port equals the configured target
port, and a payload `P`, the raw reader's `read_into` returns
`Data(len(P))` with `len(P) = frame_length − 14 − IP_header_length − 8`,
and the caller's buffer receives exactly `P`. -/
theorem raw_read_into_wellformed_returns_payload
    (s : SocketReaderImpl) (stale : Nat → Nat)
    (eth ipH udpH P : List Nat) (b0 d2 d3 : Nat)
    (he : eth.length = 14) (h20 : 20 ≤ ipH.length) (hu8 : udpH.length = 8)
    (hb0 : ipH[0]? = some b0)
    (hd2 : udpH[2]? = some d2) (hd3 : udpH[3]? = some d3)
    (hihl : (b0 &&& 0x0F) * 4 = ipH.length)
    (hbytes : ∀ b ∈ ipH ++ udpH, b < 256)
    (hport : (d2 <<< 8) ||| d3 = s.port_) :
    s.read_into stale [RecvEvent.frame (eth ++ ipH ++ udpH ++ P)] =
      some (ReadRet.ret P.length P) ∧
    P.length = (eth ++ ipH ++ udpH ++ P).length - 14 - ipH.length - 8 := by
  have hparse := parseFrame_wellFormed s.port_ stale eth ipH udpH P b0 d2 d3
    he h20 hu8 hb0 hd2 hd3 hihl hbytes
  rw [if_pos hport] at hparse
  constructor
  · exact rawReadLoop_frame_payload s.port_ stale _ _ P hparse
  · have hlen : (eth ++ ipH ++ udpH ++ P).length
        = eth.length + ipH.length + udpH.length + P.length := by
      simp [List.length_append]
      omega
    omega

/-- Witness for `raw_read_into_wellformed_returns_payload`: a concrete
47-byte frame to port 9999 with payload `[1, 2, 3, 4, 5]`. -/
theorem raw_read_into_wellformed_returns_payload_witness :
    (SocketReaderImpl.mk "192.168.0.1" 9999 "eth0" 1000 65536).read_into
        stale0 [RecvEvent.frame frameEx] =
      some (ReadRet.ret 5 [1, 2, 3, 4, 5]) :=
  (raw_read_into_wellformed_returns_payload
    (SocketReaderImpl.mk "192.168.0.1" 9999 "eth0" 1000 65536) stale0
    ethEx ipEx udpEx9999 [1, 2, 3, 4, 5] 0x45 0x27 0x0F
    (by decide) (by decide) (by decide) (by decide) (by decide) (by decide)
    (by decide) (by decide) (by decide)).1

/-- C5: a received frame whose UDP destination port differs from the
configured target port is discarded inside `read_into`, which then
receives the next frame within the same call — the mismatch is never
surfaced as an error or as a returned result; with a queue of a
non-matching then a matching frame, a single `read_into` returns the
matching frame's payload. -/
theorem raw_read_into_skips_wrong_port
    (s : SocketReaderImpl) (stale : Nat → Nat)
    (eth1 ip1 udp1 P1 eth2 ip2 udp2 P2 : List Nat)
    (a0 a2 a3 b0 d2 d3 : Nat)
    (he1 : eth1.length = 14) (h201 : 20 ≤ ip1.length) (hu81 : udp1.length = 8)
    (ha0 : ip1[0]? = some a0)
    (ha2 : udp1[2]? = some a2) (ha3 : udp1[3]? = some a3)
    (hihl1 : (a0 &&& 0x0F) * 4 = ip1.length)
    (hbytes1 : ∀ b ∈ ip1 ++ udp1, b < 256)
    (hne : (a2 <<< 8) ||| a3 ≠ s.port_)
    (he2 : eth2.length = 14) (h202 : 20 ≤ ip2.length) (hu82 : udp2.length = 8)
    (hb0 : ip2[0]? = some b0)
    (hd2 : udp2[2]? = some d2) (hd3 : udp2[3]? = some d3)
    (hihl2 : (b0 &&& 0x0F) * 4 = ip2.length)
    (hbytes2 : ∀ b ∈ ip2 ++ udp2, b < 256)
    (hport : (d2 <<< 8) ||| d3 = s.port_) :
    (∀ rest : List RecvEvent,
        s.read_into stale (RecvEvent.frame (eth1 ++ ip1 ++ udp1 ++ P1) :: rest) =
          s.read_into (frameByte (eth1 ++ ip1 ++ udp1 ++ P1) stale) rest) ∧
    s.read_into stale
        [RecvEvent.frame (eth1 ++ ip1 ++ udp1 ++ P1),
         RecvEvent.frame (eth2 ++ ip2 ++ udp2 ++ P2)] =
      some (ReadRet.ret P2.length P2) := by
  have hparse1 := parseFrame_wellFormed s.port_ stale eth1 ip1 udp1 P1 a0 a2 a3
    he1 h201 hu81 ha0 ha2 ha3 hihl1 hbytes1
  rw [if_neg hne] at hparse1
  have hskip : ∀ rest : List RecvEvent,
      s.read_into stale (RecvEvent.frame (eth1 ++ ip1 ++ udp1 ++ P1) :: rest) =
        s.read_into (frameByte (eth1 ++ ip1 ++ udp1 ++ P1) stale) rest :=
    fun rest => rawReadLoop_frame_wrongPort s.port_ stale _ rest hparse1
  refine ⟨hskip, ?_⟩
  rw [hskip]
  have hparse2 := parseFrame_wellFormed s.port_
    (frameByte (eth1 ++ ip1 ++ udp1 ++ P1) stale) eth2 ip2 udp2 P2 b0 d2 d3
    he2 h202 hu82 hb0 hd2 hd3 hihl2 hbytes2
  rw [if_pos hport] at hparse2
  exact rawReadLoop_frame_payload s.port_ _ _ _ P2 hparse2

/-- Witness for `raw_read_into_skips_wrong_port`: a frame to port 8888
carrying `[9, 9]` followed by a frame to port 9999 carrying
`[1, 2, 3, 4, 5]`, read by a reader configured for port 9999 — one call
returns the second frame's payload, not the first's. -/
theorem raw_read_into_skips_wrong_port_witness :
    (SocketReaderImpl.mk "192.168.0.1" 9999 "eth0" 1000 65536).read_into
        stale0 [RecvEvent.frame frameEx8888, RecvEvent.frame frameEx] =
      some (ReadRet.ret 5 [1, 2, 3, 4, 5]) :=
  (raw_read_into_skips_wrong_port
    (SocketReaderImpl.mk "192.168.0.1" 9999 "eth0" 1000 65536) stale0
    ethEx ipEx udpEx8888 [9, 9] ethEx ipEx udpEx9999 [1, 2, 3, 4, 5]
    0x45 0x22 0xB8 0x45 0x27 0x0F
    (by decide) (by decide) (by decide) (by decide) (by decide) (by decide)
    (by decide) (by decide) (by decide)
    (by decide) (by decide) (by decide) (by decide) (by decide) (by decide)
    (by decide) (by decide) (by decide)).2

/-- C9: an `EINTR`-unblocked receive makes `read_into` return 0 with no
error and nothing written, exactly the value returned for a matching
frame with an empty UDP payload — the two outcomes are indistinguishable
from the returned value. -/
theorem raw_read_into_eintr_indistinguishable_from_empty_payload
    (s : SocketReaderImpl) (stale stale' : Nat → Nat)
    (eth ipH udpH : List Nat) (b0 d2 d3 : Nat)
    (rest rest' : List RecvEvent)
    (he : eth.length = 14) (h20 : 20 ≤ ipH.length) (hu8 : udpH.length = 8)
    (hb0 : ipH[0]? = some b0)
    (hd2 : udpH[2]? = some d2) (hd3 : udpH[3]? = some d3)
    (hihl : (b0 &&& 0x0F) * 4 = ipH.length)
    (hbytes : ∀ b ∈ ipH ++ udpH, b < 256)
    (hport : (d2 <<< 8) ||| d3 = s.port_) :
    s.read_into stale (RecvEvent.eintr :: rest) = some (ReadRet.ret 0 []) ∧
    s.read_into stale' (RecvEvent.frame (eth ++ ipH ++ udpH) :: rest') =
      some (ReadRet.ret 0 []) ∧
    s.read_into stale (RecvEvent.eintr :: rest) =
      s.read_into stale' (RecvEvent.frame (eth ++ ipH ++ udpH) :: rest') := by
  have hframe : eth ++ ipH ++ udpH = eth ++ ipH ++ udpH ++ ([] : List Nat) := by
    simp
  have hparse := parseFrame_wellFormed s.port_ stale' eth ipH udpH [] b0 d2 d3
    he h20 hu8 hb0 hd2 hd3 hihl hbytes
  rw [if_pos hport] at hparse
  have h2 : s.read_into stale' (RecvEvent.frame (eth ++ ipH ++ udpH) :: rest') =
      some (ReadRet.ret 0 []) := by
    rw [hframe]
    exact rawReadLoop_frame_payload s.port_ stale' _ rest' [] hparse
  exact ⟨rfl, h2, by rw [h2]; rfl⟩

/-- Witness for
`raw_read_into_eintr_indistinguishable_from_empty_payload`: the
interrupted call and the empty-payload 42-byte frame both yield 0. -/
theorem raw_read_into_eintr_witness :
    (SocketReaderImpl.mk "192.168.0.1" 9999 "eth0" 1000 65536).read_into
        stale0 [RecvEvent.eintr] =
      (SocketReaderImpl.mk "192.168.0.1" 9999 "eth0" 1000 65536).read_into
        stale0 [RecvEvent.frame (ethEx ++ ipEx ++ udpEx9999)] :=
  (raw_read_into_eintr_indistinguishable_from_empty_payload
    (SocketReaderImpl.mk "192.168.0.1" 9999 "eth0" 1000 65536) stale0 stale0
    ethEx ipEx udpEx9999 0x45 0x27 0x0F [] []
    (by decide) (by decide) (by decide) (by decide) (by decide) (by decide)
    (by decide) (by decide) (by decide)).2.2

/-- C1 (failing input): the raw capture reader's `read_into` copies a
matching frame's payload with `memcpy(buff, udp_payload, payload_len)`
without ever clamping `payload_len` to `chunk_size_`, contradicting the
interface contract `0 <= result <= chunk_size` documented in
stream_reader.hpp.  A reader with `chunk_size = 4` fed the 47-byte frame
`frameEx` returns 5 and writes 5 bytes into the caller's buffer. -/
theorem raw_read_into_exceeds_chunk_size :
    (SocketReaderImpl.mk "192.168.0.1" 9999 "eth0" 1000 4).read_into
        stale0 [RecvEvent.frame frameEx] =
      some (ReadRet.ret 5 [1, 2, 3, 4, 5]) ∧
    (SocketReaderImpl.mk "192.168.0.1" 9999 "eth0" 1000 4).get_chunk_size < 5 := by
  decide

/-- C2 (counterexample): on the 42-byte frame `frameExIhl15`, whose IHL
nibble decodes to a 60-byte IP header, the parse reads `udp_header[2]`
at `frame_buffer_` index 76 — beyond the received length 42 — before any
total-length re-validation, and the frame is then silently discarded as
wrong-port rather than rejected. -/
theorem raw_read_reads_beyond_received_length :
    frameExIhl15.length = 42 ∧
    76 ∈ (parseFrame 9999 stale0 frameExIhl15).2 ∧
    ¬ 76 < frameExIhl15.length ∧
    (parseFrame 9999 stale0 frameExIhl15).1 = ParseResult.wrongPort := by
  decide

/-- C2 (amended): all `frame_buffer_` reads of the parse stay below
65536 (the size of the internal buffer) whenever the received length is
at most 65536 — the port-read indices are at most 77 even when they
exceed the received length — and any returned payload's length is at
most the received frame length. -/
theorem raw_read_within_buffer_and_payload_bounded
    (port : Nat) (stale : Nat → Nat) (f : List Nat)
    (hle : f.length ≤ 65536) :
    (∀ i ∈ (parseFrame port stale f).2, i < 65536) ∧
    (∀ p, (parseFrame port stale f).1 = ParseResult.payload p →
      p.length ≤ f.length) := by
  have hihl60 := ip_header_len_le stale f
  have ht : total_headers stale f = 14 + ip_header_len stale f + 8 := rfl
  constructor
  · intro i hi
    unfold parseFrame at hi
    split at hi
    · simp at hi
    · split at hi
      · simp at hi
        omega
      · split at hi
        · simp at hi
          rcases hi with h | h | h <;> omega
        · split at hi
          · simp at hi
            rcases hi with h | h | h <;> omega
          · simp only [List.mem_append, List.mem_cons, List.mem_map,
              List.mem_range, List.not_mem_nil, or_false] at hi
            rcases hi with (h | h | h) | ⟨j, hj, rfl⟩ <;> omega
  · intro p hp
    unfold parseFrame at hp
    split at hp
    · simp at hp
    · split at hp
      · simp at hp
      · split at hp
        · simp at hp
        · split at hp
          · simp at hp
          · simp only [Prod.fst] at hp
            have := ParseResult.payload.inj hp
            rw [← this]
            simp [List.length_drop]

/-- Witness for `raw_read_within_buffer_and_payload_bounded` at the
concrete frame `frameEx`. -/
theorem raw_read_within_buffer_witness :
    frameEx.length ≤ 65536 ∧
    ((∀ i ∈ (parseFrame 9999 stale0 frameEx).2, i < 65536) ∧
     (∀ p, (parseFrame 9999 stale0 frameEx).1 = ParseResult.payload p →
       p.length ≤ frameEx.length)) :=
  ⟨by decide,
   raw_read_within_buffer_and_payload_bounded 9999 stale0 frameEx (by decide)⟩

/-- C4 (amended): a frame shorter than 42 bytes, or one whose IHL nibble
decodes to fewer than 20 bytes, makes `read_into` throw `SocketError`
with a malformed-frame message.  This is the same exception class as the
fatal capture fault (`recvfrom()` failure) — the two are distinguishable
only by message text, not by kind; and the throw does not close the
socket, so the source remains usable for the next call. -/
theorem raw_read_into_malformed_raises_socket_error
    (s : SocketReaderImpl) (stale : Nat → Nat) (f : List Nat)
    (rest rest' : List RecvEvent) (msg : String) :
    (f.length < 42 →
      s.read_into stale (RecvEvent.frame f :: rest) =
        some (ReadRet.excSocket "Received frame too small for UDP packet")) ∧
    (42 ≤ f.length → ip_header_len stale f < 20 →
      s.read_into stale (RecvEvent.frame f :: rest) =
        some (ReadRet.excSocket
          ("Invalid IP header length: " ++ toString (ip_header_len stale f)))) ∧
    s.read_into stale (RecvEvent.fault msg :: rest') =
      some (ReadRet.excSocket ("recvfrom() failed: " ++ msg)) := by
  refine ⟨?_, ?_, rfl⟩
  · intro hshort
    apply rawReadLoop_frame_malformed
    unfold parseFrame
    rw [if_pos (by omega)]
  · intro hlong hihl
    apply rawReadLoop_frame_malformed
    unfold parseFrame
    rw [if_neg (by omega), if_pos hihl]

/-- Witness for `raw_read_into_malformed_raises_socket_error`: the
41-byte frame `frameExShort`. -/
theorem raw_read_into_malformed_witness :
    frameExShort.length < 42 ∧
    (SocketReaderImpl.mk "192.168.0.1" 9999 "eth0" 1000 65536).read_into
        stale0 [RecvEvent.frame frameExShort] =
      some (ReadRet.excSocket "Received frame too small for UDP packet") :=
  ⟨by decide,
   (raw_read_into_malformed_raises_socket_error
     (SocketReaderImpl.mk "192.168.0.1" 9999 "eth0" 1000 65536) stale0
     frameExShort [] [] "io").1 (by decide)⟩

/-- C4 (counterexample): the claim calls `MalformedFrame` an error kind
distinct from the fatal capture fault, but the code throws the same
exception class `SocketError` for a too-short frame and for a failed
`recvfrom` — the two results have identical exception class. -/
theorem raw_read_malformed_same_class_as_fault :
    ((SocketReaderImpl.mk "192.168.0.1" 9999 "eth0" 1000 65536).read_into
        stale0 [RecvEvent.frame frameExShort]).map ReadRet.excClass =
      ((SocketReaderImpl.mk "192.168.0.1" 9999 "eth0" 1000 65536).read_into
        stale0 [RecvEvent.fault "io"]).map ReadRet.excClass ∧
    ((SocketReaderImpl.mk "192.168.0.1" 9999 "eth0" 1000 65536).read_into
        stale0 [RecvEvent.frame frameExShort]).map ReadRet.excClass =
      some (some "SocketError") := by
  decide

/-- C8: the kernel filter program installed by `setup_bpf_filter`
accepts a frame if and only if the 2-byte big-endian EtherType at byte
offset 12 equals `0x0800` (IPv4) and the IP protocol byte at offset 23
equals 17 (UDP).  The program touches no other bytes, so in particular
it performs no filtering by port. -/
theorem bpf_filter_accepts_iff (pkt : List Nat) (h : 24 ≤ pkt.length) :
    bpf_accepts pkt = true ↔
      ((pkt.getD 12 0 % 256) <<< 8 ||| (pkt.getD 13 0 % 256) = 0x0800 ∧
        pkt.getD 23 0 % 256 = 17) := by
  obtain ⟨b12, h12⟩ : ∃ b, pkt[12]? = some b :=
    ⟨_, List.getElem?_eq_getElem (by omega)⟩
  obtain ⟨b13, h13⟩ : ∃ b, pkt[13]? = some b :=
    ⟨_, List.getElem?_eq_getElem (by omega)⟩
  obtain ⟨b23, h23⟩ : ∃ b, pkt[23]? = some b :=
    ⟨_, List.getElem?_eq_getElem (by omega)⟩
  have g12 : pkt.getD 12 0 = b12 := by rw [List.getD_eq_getElem?_getD, h12]; rfl
  have g13 : pkt.getD 13 0 = b13 := by rw [List.getD_eq_getElem?_getD, h13]; rfl
  have g23 : pkt.getD 23 0 = b23 := by rw [List.getD_eq_getElem?_getD, h23]; rfl
  rw [g12, g13, g23]
  by_cases hA : ((b12 % 256) <<< 8) ||| (b13 % 256) = 0x0800
  · by_cases hB : b23 % 256 = 17
    · simp [bpf_accepts, bpfRun, bpf_code, h12, h13, h23, hA, hB]
    · simp [bpf_accepts, bpfRun, bpf_code, h12, h13, h23, hA, hB]
  · simp [bpf_accepts, bpfRun, bpf_code, h12, h13, h23, hA]

/-- Witness for `bpf_filter_accepts_iff`: the IPv4+UDP packet `pktExUdp`
is accepted; the IPv4+TCP packet `pktExTcp` is rejected. -/
theorem bpf_filter_accepts_iff_witness :
    24 ≤ pktExUdp.length ∧ bpf_accepts pktExUdp = true ∧
    24 ≤ pktExTcp.length ∧ bpf_accepts pktExTcp = false :=
  ⟨by decide,
   (bpf_filter_accepts_iff pktExUdp (by decide)).mpr (by decide),
   by decide,
   by
     have hiff := bpf_filter_accepts_iff pktExTcp (by decide)
     revert hiff
     decide⟩

theorem take_append_drop_length (l : List Nat) (c : Nat) :
    l.take c ++ l.drop (l.take c).length = l := by
  by_cases h : c ≤ l.length
  · have hl : (l.take c).length = c := by
      rw [List.length_take]
      omega
    rw [hl]
    exact List.take_append_drop c l
  · have h1 : l.take c = l := List.take_of_length_le (by omega)
    have h2 : (l.take c).length = l.length := by rw [h1]
    rw [h2, h1]
    simp [List.drop_length]

/-- Master lemma about draining a `FileReader` by repeated `read_into`
calls, by induction on the fuel: the concatenated chunks are exactly the
bytes from the current position to the end; there are
`ceil(remaining / chunk_sz)` chunks; every chunk is non-empty and at
most `chunk_sz` long; every chunk but the last is exactly `chunk_sz`
long; and the final state differs from the initial one only in `pos`,
which ends at the end of the file. -/
theorem drainFuel_spec (fuel : Nat) :
    ∀ r : FileReader, 0 < r.chunk_sz → r.contents.length - r.pos < fuel →
      (FileReader.drainFuel fuel r).1.flatten = r.contents.drop r.pos ∧
      (FileReader.drainFuel fuel r).1.length
        = (r.contents.length - r.pos + r.chunk_sz - 1) / r.chunk_sz ∧
      (∀ ch ∈ (FileReader.drainFuel fuel r).1,
        ch.length ≠ 0 ∧ ch.length ≤ r.chunk_sz) ∧
      (∀ i, i + 1 < (FileReader.drainFuel fuel r).1.length →
        ((FileReader.drainFuel fuel r).1[i]?).map List.length
          = some r.chunk_sz) ∧
      (FileReader.drainFuel fuel r).2
        = { r with pos := max r.pos r.contents.length } := by
  induction fuel with
  | zero =>
    intro r hc hf
    omega
  | succ fuel ih =>
    intro r hc hf
    have hn : r.read_into.1.2 = min r.chunk_sz (r.contents.length - r.pos) := by
      simp [FileReader.read_into]
    by_cases h0 : r.read_into.1.2 = 0
    · have hpos : r.contents.length ≤ r.pos := by
        rw [hn] at h0
        omega
      simp only [FileReader.drainFuel]
      rw [if_pos h0]
      refine ⟨?_, ?_, ?_, ?_, ?_⟩
      · simp [List.drop_eq_nil_of_le hpos]
      · simp only [List.length_nil]
        symm
        apply Nat.div_eq_of_lt
        omega
      · simp
      · simp
      · show ({ r with pos := r.pos + r.read_into.1.2 } : FileReader) = _
        have hmax : r.pos + r.read_into.1.2 = max r.pos r.contents.length := by
          rw [hn]
          omega
        rw [hmax]
    · have hnpos : 0 < r.read_into.1.2 := Nat.pos_of_ne_zero h0
      have hlt : r.pos < r.contents.length := by
        rw [hn] at hnpos
        omega
      have e1 : r.read_into.2.contents = r.contents := rfl
      have e2 : r.read_into.2.chunk_sz = r.chunk_sz := rfl
      have e3 : r.read_into.2.pos = r.pos + r.read_into.1.2 := rfl
      have hfuel' : r.read_into.2.contents.length - r.read_into.2.pos < fuel := by
        rw [e1, e3]
        omega
      obtain ⟨ihJ, ihL, ihB, ihC, ihF⟩ := ih r.read_into.2 hc hfuel'
      simp only [FileReader.drainFuel]
      rw [if_neg h0]
      refine ⟨?_, ?_, ?_, ?_, ?_⟩
      · show (r.read_into.1.1 :: (FileReader.drainFuel fuel r.read_into.2).1).flatten
          = r.contents.drop r.pos
        rw [List.flatten_cons, ihJ, e1, e3]
        have hdd : (r.contents.drop r.pos).drop
              ((r.contents.drop r.pos).take r.chunk_sz).length
            = r.contents.drop (r.pos + r.read_into.1.2) := by
          rw [List.drop_drop]
          rfl
        rw [← hdd]
        exact take_append_drop_length _ _
      · show (r.read_into.1.1 :: (FileReader.drainFuel fuel r.read_into.2).1).length
          = (r.contents.length - r.pos + r.chunk_sz - 1) / r.chunk_sz
        rw [List.length_cons, ihL, e1, e2, e3]
        by_cases hcase : r.chunk_sz ≤ r.contents.length - r.pos
        · have hnc : r.read_into.1.2 = r.chunk_sz := by
            rw [hn]
            omega
          rw [hnc]
          have e4 : r.contents.length - r.pos + r.chunk_sz - 1
              = (r.contents.length - (r.pos + r.chunk_sz) + r.chunk_sz - 1)
                + r.chunk_sz := by omega
          rw [e4, Nat.add_div_right _ hc]
        · have hnc : r.read_into.1.2 = r.contents.length - r.pos := by
            rw [hn]
            omega
          rw [hnc]
          have e4 : r.contents.length - (r.pos + (r.contents.length - r.pos)) = 0 := by
            omega
          rw [e4]
          rw [Nat.div_eq_of_lt (by omega)]
          have e5 : r.contents.length - r.pos + r.chunk_sz - 1
              = (r.contents.length - r.pos - 1) + r.chunk_sz := by omega
          rw [e5, Nat.add_div_right _ hc, Nat.div_eq_of_lt (by omega)]
      · show ∀ ch ∈ (r.read_into.1.1 :: (FileReader.drainFuel fuel r.read_into.2).1),
          ch.length ≠ 0 ∧ ch.length ≤ r.chunk_sz
        intro ch hch
        rcases List.mem_cons.mp hch with h | h
        · subst h
          refine ⟨?_, ?_⟩
          · show r.read_into.1.2 ≠ 0
            exact h0
          · show r.read_into.1.2 ≤ r.chunk_sz
            rw [hn]
            omega
        · have hb := ihB ch h
          rw [e2] at hb
          exact hb
      · show ∀ i, i + 1 <
            (r.read_into.1.1 :: (FileReader.drainFuel fuel r.read_into.2).1).length →
          (((r.read_into.1.1 :: (FileReader.drainFuel fuel r.read_into.2).1))[i]?).map
              List.length = some r.chunk_sz
        intro i hi
        rw [List.length_cons] at hi
        cases i with
        | zero =>
          have hi' : 0 < (FileReader.drainFuel fuel r.read_into.2).1.length := by
            omega
          have hpos' : 0 < r.read_into.2.contents.length - r.read_into.2.pos := by
            by_contra hcon
            push_neg at hcon
            rw [ihL] at hi'
            have hz : r.read_into.2.contents.length - r.read_into.2.pos = 0 := by
              omega
            rw [hz, e2] at hi'
            rw [Nat.div_eq_of_lt (by omega)] at hi'
            omega
          rw [e1, e3] at hpos'
          simp only [List.getElem?_cons_zero, Option.map_some]
          have hnc : r.read_into.1.2 = r.chunk_sz := by
            rw [hn] at hpos' ⊢
            omega
          show some r.read_into.1.2 = some r.chunk_sz
          rw [hnc]
        | succ i =>
          simp only [List.getElem?_cons_succ]
          have hc' := ihC i (by omega)
          rw [e2] at hc'
          exact hc'
      · show (FileReader.drainFuel fuel r.read_into.2).2 = _
        rw [ihF]
        show ({ r with pos := max (r.pos + r.read_into.1.2) r.contents.length }
            : FileReader) = _
        have hmax : max (r.pos + r.read_into.1.2) r.contents.length
            = max r.pos r.contents.length := by
          rw [hn]
          omega
        rw [hmax]

/-- C6: for chunk size `c > 0` over a file of length `L`, the
constructor exposes chunk count `ceil(L/c) = (L + c - 1) / c`, and
repeated `read_into` calls produce exactly that many non-zero byte
counts, summing to `L`, each count except possibly the last equal to
`c`, after which `read_into` returns 0. -/
theorem file_reader_chunk_sequence (p : String) (bytes : List Nat) (c : Nat)
    (hc : 0 < c) :
    (FileReader.make p bytes c 0).get_chunk_count = (bytes.length + c - 1) / c ∧
    ((FileReader.make p bytes c 0).drain.1.map List.length).length
      = (bytes.length + c - 1) / c ∧
    ((FileReader.make p bytes c 0).drain.1.map List.length).sum = bytes.length ∧
    (∀ n ∈ (FileReader.make p bytes c 0).drain.1.map List.length,
      n ≠ 0 ∧ n ≤ c) ∧
    (∀ i, i + 1 < ((FileReader.make p bytes c 0).drain.1.map List.length).length →
      ((FileReader.make p bytes c 0).drain.1.map List.length)[i]? = some c) ∧
    (FileReader.make p bytes c 0).drain.2.read_into.1.2 = 0 := by
  obtain ⟨hJ, hL, hB, hC, hF⟩ := drainFuel_spec
    ((FileReader.make p bytes c 0).contents.length + 1)
    (FileReader.make p bytes c 0) hc (by omega)
  simp only [FileReader.drain]
  refine ⟨rfl, ?_, ?_, ?_, ?_, ?_⟩
  · rw [List.length_map, hL]
    show (bytes.length - 0 + c - 1) / c = (bytes.length + c - 1) / c
    rw [Nat.sub_zero]
  · rw [← List.length_flatten, hJ]
    show (bytes.drop 0).length = bytes.length
    rw [List.drop_zero]
  · intro n hn
    rw [List.mem_map] at hn
    obtain ⟨ch, hch, rfl⟩ := hn
    exact hB ch hch
  · intro i hi
    rw [List.length_map] at hi
    rw [List.getElem?_map]
    exact hC i hi
  · rw [hF]
    show ((bytes.drop (max 0 bytes.length)).take c).length = 0
    simp [List.length_take, List.length_drop]

/-- Witness for `file_reader_chunk_sequence`: a 7-byte file with chunk
size 3 yields counts `[3, 3, 1]`. -/
theorem file_reader_chunk_sequence_witness :
    0 < 3 ∧
    ((FileReader.make "data.bin" [1, 2, 3, 4, 5, 6, 7] 3 0).get_chunk_count
        = ([1, 2, 3, 4, 5, 6, 7].length + 3 - 1) / 3 ∧
      ((FileReader.make "data.bin" [1, 2, 3, 4, 5, 6, 7] 3 0).drain.1.map
          List.length).length = ([1, 2, 3, 4, 5, 6, 7].length + 3 - 1) / 3 ∧
      ((FileReader.make "data.bin" [1, 2, 3, 4, 5, 6, 7] 3 0).drain.1.map
          List.length).sum = [1, 2, 3, 4, 5, 6, 7].length ∧
      (∀ n ∈ (FileReader.make "data.bin" [1, 2, 3, 4, 5, 6, 7] 3 0).drain.1.map
          List.length, n ≠ 0 ∧ n ≤ 3) ∧
      (∀ i, i + 1 <
          ((FileReader.make "data.bin" [1, 2, 3, 4, 5, 6, 7] 3 0).drain.1.map
            List.length).length →
        ((FileReader.make "data.bin" [1, 2, 3, 4, 5, 6, 7] 3 0).drain.1.map
          List.length)[i]? = some 3) ∧
      (FileReader.make "data.bin" [1, 2, 3, 4, 5, 6, 7] 3 0).drain.2.read_into.1.2
        = 0) :=
  ⟨by decide, file_reader_chunk_sequence "data.bin" [1, 2, 3, 4, 5, 6, 7] 3
    (by decide)⟩

/-- C7: seeking a File Source to offset `k` with `jump_to` and reading
to the end produces the same byte sequence as reading the whole file
from the start and discarding the first `k` bytes. -/
theorem file_reader_seek_then_read_equals_drop (p : String) (bytes : List Nat)
    (c k : Nat) (hc : 0 < c) (_hk : k ≤ bytes.length) :
    ((FileReader.make p bytes c 0).jump_to k).drain.1.flatten
      = (FileReader.make p bytes c 0).drain.1.flatten.drop k := by
  have h1 := (drainFuel_spec
    (((FileReader.make p bytes c 0).jump_to k).contents.length + 1)
    ((FileReader.make p bytes c 0).jump_to k) hc (by omega)).1
  have h2 := (drainFuel_spec
    ((FileReader.make p bytes c 0).contents.length + 1)
    (FileReader.make p bytes c 0) hc (by omega)).1
  simp only [FileReader.drain]
  rw [h1, h2]
  show bytes.drop k = (bytes.drop 0).drop k
  rw [List.drop_zero]

/-- Witness for `file_reader_seek_then_read_equals_drop` at a 5-byte
file, chunk size 2, offset 3. -/
theorem file_reader_seek_witness :
    0 < 2 ∧ 3 ≤ [10, 20, 30, 40, 50].length ∧
    ((FileReader.make "f.bin" [10, 20, 30, 40, 50] 2 0).jump_to 3).drain.1.flatten
      = (FileReader.make "f.bin" [10, 20, 30, 40, 50] 2 0).drain.1.flatten.drop 3 :=
  ⟨by decide, by decide,
   file_reader_seek_then_read_equals_drop "f.bin" [10, 20, 30, 40, 50] 2 3
     (by decide) (by decide)⟩

/-- C10: `read_into` and `jump_to` change only the file position — the
values of `get_chunk_size`, `get_size`, `get_chunk_count` and
`get_file_path` are unchanged by either call. -/
theorem file_reader_metadata_frame (r : FileReader) (off : Nat) :
    (r.read_into.2.get_chunk_size = r.get_chunk_size ∧
     r.read_into.2.get_size = r.get_size ∧
     r.read_into.2.get_chunk_count = r.get_chunk_count ∧
     r.read_into.2.get_file_path = r.get_file_path) ∧
    ((r.jump_to off).get_chunk_size = r.get_chunk_size ∧
     (r.jump_to off).get_size = r.get_size ∧
     (r.jump_to off).get_chunk_count = r.get_chunk_count ∧
     (r.jump_to off).get_file_path = r.get_file_path) :=
  ⟨⟨rfl, rfl, rfl, rfl⟩, ⟨rfl, rfl, rfl, rfl⟩⟩
